import Mathlib

/-!
Shallow embedding of the confirm-before-mutate pipeline of the repository
(`src/nexus_file.py` and `src/robot.py`), together with proofs of the
testable properties of its specification.

Paths are modelled as lists of components (the parts of a `pathlib.Path`);
the filesystem is a pair of lists (regular files, directories); the
environment `Env` models the outcomes chosen by the operating system for
`mkdir` and per-source `shutil.move` permission checks.  Every filesystem
call the scripts issue is recorded in an event trace so that statements
about "no move is attempted" can be made precise.
-/

namespace NexusRobot

/-! ### Python string primitives (`str.strip`, `str.lower`, `in`) -/

/-- Whitespace characters recognised by Python's `str.strip()` (the ASCII
ones; the scripts only ever receive console input). -/
def pyIsSpace (c : Char) : Bool :=
  c = ' ' || c = '\t' || c = '\n' || c = '\r' || c = '\x0b' || c = '\x0c'

/-- ASCII lowering of one character, as Python's `str.lower()` acts on the
ASCII range (the only range the scripts compare against). -/
def pyLowerChar (c : Char) : Char :=
  if 65 ≤ c.toNat ∧ c.toNat ≤ 90 then Char.ofNat (c.toNat + 32) else c

/-- Python `s.lower()` restricted to the ASCII range. -/
def pyLower (s : String) : String :=
  ⟨s.data.map pyLowerChar⟩

/-- Python `s.strip()`: drop leading and trailing whitespace. -/
def pyStrip (s : String) : String :=
  ⟨((s.data.dropWhile pyIsSpace).reverse.dropWhile pyIsSpace).reverse⟩

/-- Python `needle in hay` on strings: contiguous substring containment. -/
def substrIn : List Char → List Char → Bool
  | [], needle => needle.isEmpty
  | c :: t, needle => needle.isPrefixOf (c :: t) || substrIn t needle

/-! ### Paths and the filesystem state -/

/-- A filesystem path, as its list of components (`pathlib.Path.parts`). -/
abbrev FPath := List String

/-- Final component of a path: `pathlib.Path.name`. -/
def nameOf (p : FPath) : String := p.getLastD ""

/-- `p` lies strictly below `root` (any depth): the paths `Path.rglob`
enumerates. -/
def isUnder (root p : FPath) : Bool :=
  root.isPrefixOf p && decide (root.length < p.length)

/-- `p` is a direct child of `root`: the paths a non-recursive `Path.glob`
enumerates. -/
def isChild (root p : FPath) : Bool :=
  root.isPrefixOf p && decide (p.length = root.length + 1)

/-- Filesystem state: the set of regular files and the set of directories,
each as a list of absolute paths. -/
structure FS where
  files : List FPath
  dirs : List FPath
deriving DecidableEq

/-- The path names an existing regular file. -/
def FS.isFile (fs : FS) (p : FPath) : Bool := fs.files.contains p

/-- The path exists, as a file or as a directory (`Path.exists`). -/
def FS.pathExists (fs : FS) (p : FPath) : Bool :=
  fs.files.contains p || fs.dirs.contains p

/-- Well-formedness of a filesystem state: every proper prefix of an
existing entry is an existing directory. -/
def FS.wellFormed (fs : FS) : Bool :=
  (fs.files ++ fs.dirs).all fun p =>
    (p.inits.filter (fun q => q ≠ p)).all fun q => fs.dirs.contains q

/-! ### Filesystem calls, their environment, and the event trace -/

/-- Outcomes the operating system chooses for the fallible calls: whether
creating a given destination directory succeeds, and whether moving a given
source is denied by permissions. -/
structure Env where
  mkdirOk : FPath → Bool
  moveDenied : FPath → Bool

/-- One attempted filesystem mutation, recorded in execution order. -/
inductive FSEvent where
  | mkdirAttempt (dest : FPath)
  | moveAttempt (src tgt : FPath)
deriving DecidableEq

/-- Recognise a directory-creation attempt in a trace. -/
def FSEvent.isMkdir : FSEvent → Bool
  | .mkdirAttempt _ => true
  | .moveAttempt _ _ => false

/-- The behaviour of `shutil.move(src, tgt)` on a regular-file source with
the full target path given: a missing source raises `FileNotFoundError`, a
denied source raises `PermissionError`, otherwise the file is renamed to
`tgt`, replacing any regular file already there (POSIX `os.rename`). -/
def shutilMove (env : Env) (fs : FS) (src tgt : FPath) : Except String FS :=
  if fs.files.contains src then
    if env.moveDenied src then .error "PermissionError"
    else .ok ⟨tgt :: ((fs.files.erase src).erase tgt), fs.dirs⟩
  else .error "FileNotFoundError"

/-! ### `robot.py`: `FileSystemEngine` -/

namespace FileSystemEngine

/-- Result of `FileSystemEngine.move_files`: the per-item console report
(source paired with its new location or the caught exception), the
`success_count` counter, the final filesystem, and the call trace. -/
structure MoveResult where
  outcomes : List (FPath × Except String FPath)
  successCount : Nat
  fs : FS
  trace : List FSEvent

/-- The `for f in file_paths` loop of `FileSystemEngine.move_files`: each
iteration calls `shutil.move(f, dest / Path(f).name)` inside its own
`try/except`, so an exception is recorded for that item and the loop
continues. -/
def moveLoop (env : Env) (dest : FPath) : FS → List FPath →
    List (FPath × Except String FPath) × Nat × FS × List FSEvent
  | fs, [] => ([], 0, fs, [])
  | fs, f :: rest =>
    let tgt := dest ++ [nameOf f]
    match shutilMove env fs f tgt with
    | .ok fs1 =>
      let r := moveLoop env dest fs1 rest
      ((f, .ok tgt) :: r.1, r.2.1 + 1, r.2.2.1, .moveAttempt f tgt :: r.2.2.2)
    | .error e =>
      let r := moveLoop env dest fs rest
      ((f, .error e) :: r.1, r.2.1, r.2.2.1, .moveAttempt f tgt :: r.2.2.2)

/-- An outcome entry reported as a failure (the `→ Failed:` console
lines). -/
def isFailure (o : FPath × Except String FPath) : Bool :=
  match o.2 with
  | .ok _ => false
  | .error _ => true

/-- `FileSystemEngine.move_files(file_paths, destination)`: first
`dest.mkdir(parents=True, exist_ok=True)` inside a `try/except` whose
failure returns at once, then the per-item move loop. -/
def move_files (env : Env) (fs : FS) (filePaths : List FPath)
    (destination : FPath) : MoveResult :=
  if env.mkdirOk destination then
    let fs1 : FS := ⟨fs.files, destination :: fs.dirs⟩
    let r := moveLoop env destination fs1 filePaths
    ⟨r.1, r.2.1, r.2.2.1, .mkdirAttempt destination :: r.2.2.2⟩
  else
    ⟨[], 0, fs, [.mkdirAttempt destination]⟩

/-- Console outcome of a search, reified from the printed messages. -/
inductive SearchMsg where
  | pathDoesNotExist
  | found (n : Nat)
  | noFilesFound
deriving DecidableEq

/-- The entries `glob_func(pattern)` enumerates: every file or directory
under `root` (strictly below it when recursive, direct children otherwise)
whose final component matches the glob pattern, the pattern abstracted as a
predicate on that name. -/
def globEntries (fs : FS) (root : FPath) (recursive : Bool)
    (pat : String → Bool) : List FPath :=
  (fs.files ++ fs.dirs).filter fun p =>
    (if recursive then isUnder root p else isChild root p) && pat (nameOf p)

/-- `FileSystemEngine.find_files(pattern, root_path, recursive)`: a missing
root reports "Path does not exist." and returns `[]`; otherwise the glob
entries are kept only `if p.is_file()` and the count is reported. -/
def find_files (fs : FS) (pat : String → Bool) (rootPath : FPath)
    (recursive : Bool) : List FPath × SearchMsg :=
  if fs.pathExists rootPath then
    let files := (globEntries fs rootPath recursive pat).filter fun p => fs.isFile p
    (files, .found files.length)
  else ([], .pathDoesNotExist)

end FileSystemEngine

/-- The confirmation comparison of `AIRobot.execute`:
`input(...).lower() == "y"` (no whitespace stripping). -/
def robot_confirm (s : String) : Bool := pyLower s == "y"

/-- The gate of `AIRobot.execute` around `exec(code, ...)`: the generated
plan (abstracted as a state transformer with its own trace, since the code
is arbitrary) runs only when the confirmation comparison succeeds. -/
def robotExecuteGate (plan : FS → FS × List FSEvent) (fs : FS)
    (confirm : String) : FS × List FSEvent :=
  if robot_confirm confirm then plan fs else (fs, [])

/-! ### `nexus_file.py` -/

namespace NexusFile

/-- `search_files(directory, extension, search_term)`: walk
`Path(directory).rglob(f"*{extension}")` (entries whose name ends with the
extension) and keep those with `search_term.lower() in path.name.lower()`.
No existence check and no error signal: a missing directory just yields no
entries. -/
def search_files (fs : FS) (directory : FPath) (extension : String)
    (searchTerm : String) : List FPath :=
  (FileSystemEngine.globEntries fs directory true
      (fun name => extension.data.isSuffixOf name.data)).filter
    fun p => substrIn (pyLower (nameOf p)).data (pyLower searchTerm).data

/-- Result of `nexus_file.move_files`: the `moved` mapping it returns (only
meaningful when `exc = none`), the final filesystem, the exception that
escaped the function if any, and the call trace. -/
structure MoveResult where
  moved : List (FPath × FPath)
  fs : FS
  exc : Option String
  trace : List FSEvent

/-- The `for file_path in file_list` loop of `nexus_file.move_files`: the
`shutil.move` call is not guarded, so the first exception aborts the loop
and escapes, discarding the `moved` mapping built so far (but keeping the
moves already performed on disk). -/
def moveLoop (env : Env) (dest : FPath) : FS → List FPath →
    List (FPath × FPath) × FS × Option String × List FSEvent
  | fs, [] => ([], fs, none, [])
  | fs, f :: rest =>
    let tgt := dest ++ [nameOf f]
    match shutilMove env fs f tgt with
    | .ok fs1 =>
      let r := moveLoop env dest fs1 rest
      ((f, tgt) :: r.1, r.2.1, r.2.2.1, .moveAttempt f tgt :: r.2.2.2)
    | .error e => ([], fs, some e, [.moveAttempt f tgt])

/-- `nexus_file.move_files(file_list, destination_folder)`:
`dest.mkdir(parents=True, exist_ok=True)` first — its failure (a
`PermissionError` from the OS) escapes the function — then the unguarded
per-item loop. -/
def move_files (env : Env) (fs : FS) (fileList : List FPath)
    (destinationFolder : FPath) : MoveResult :=
  if env.mkdirOk destinationFolder then
    let fs1 : FS := ⟨fs.files, destinationFolder :: fs.dirs⟩
    let r := moveLoop env destinationFolder fs1 fileList
    ⟨r.1, r.2.1, r.2.2.1, .mkdirAttempt destinationFolder :: r.2.2.2⟩
  else
    ⟨[], fs, some "PermissionError", [.mkdirAttempt destinationFolder]⟩

/-- The confirmation comparison of `preview_changes`:
`input(...).strip().lower() == "y"`. -/
def preview_decision (choice : String) : Bool :=
  pyLower (pyStrip choice) == "y"

/-- The console message `main` prints after a `search_files` tool call
(lines 219-224): "Found n file(s)" when the result is non-empty, otherwise
the generic "No files found." — reified alongside the returned list. -/
def searchReport (fs : FS) (directory : FPath) (extension : String)
    (searchTerm : String) : List FPath × FileSystemEngine.SearchMsg :=
  let r := search_files fs directory extension searchTerm
  (r, if r.isEmpty then .noFilesFound else .found r.length)

/-- Arguments of one Gemini function call, as `dispatch_tool` reads them. -/
structure GeminiArgs where
  directory : FPath
  extension : String
  searchTerm : String
  fileList : List FPath
  destinationFolder : FPath
deriving DecidableEq

/-- One entry of the `functionCall` parts of the Gemini response. -/
structure FuncCall where
  name : String
  args : GeminiArgs
deriving DecidableEq

/-- How one run of `main` ends after the resolver response arrives. -/
inductive RunOutcome where
  | completed
  | noFilesToMove
  | unexpectedError (msg : String)
deriving DecidableEq

/-- The `for part in function_calls` loop of `main`: a `search_files` call
stores a non-empty result in `context["files"]`; a `move_files` call
returns early when no files are in context, otherwise asks
`preview_changes` (consuming one line of console input) and runs
`move_files` only on approval, an escaping exception ending the run as
"Unexpected error"; any other name makes `dispatch_tool` raise
`ValueError("Unknown tool")`, which its own `except` clause (limited to
`PermissionError`/`FileNotFoundError`) does not catch, ending the run the
same way. -/
def mainLoop (env : Env) : List String → List FPath → FS → List FSEvent →
    List FuncCall → FS × List FSEvent × RunOutcome
  | _, _, fs, tr, [] => (fs, tr, .completed)
  | confirms, ctx, fs, tr, c :: rest =>
    if c.name == "search_files" then
      let r := search_files fs c.args.directory c.args.extension c.args.searchTerm
      mainLoop env confirms (if r.isEmpty then ctx else r) fs tr rest
    else if c.name == "move_files" then
      if ctx.isEmpty then (fs, tr, .noFilesToMove)
      else if preview_decision (confirms.headD "") then
        let m := move_files env fs ctx c.args.destinationFolder
        match m.exc with
        | some e => (m.fs, tr ++ m.trace, .unexpectedError e)
        | none => mainLoop env confirms.tail ctx m.fs (tr ++ m.trace) rest
      else mainLoop env confirms.tail ctx fs tr rest
    else (fs, tr, .unexpectedError "Unknown tool")

/-- One run of `main` from the point the resolver response is in hand:
`confirms` is the stream of console lines available to successive
confirmation prompts (exhausted input reads as the empty line). -/
def run (env : Env) (confirms : List String) (fs : FS)
    (calls : List FuncCall) : FS × List FSEvent × RunOutcome :=
  mainLoop env confirms [] fs [] calls

end NexusFile

/-! ### Concrete instances used by witnesses and counterexamples -/

/-- Environment where every directory creation succeeds and no move is
denied. -/
def envOk : Env := ⟨fun _ => true, fun _ => false⟩

/-- Environment where creating any directory fails. -/
def envNoMkdir : Env := ⟨fun _ => false, fun _ => false⟩

/-- A small filesystem: two files `/a` and `/b` at the root. -/
def fsAB : FS := ⟨[["a"], ["b"]], [[]]⟩

/-- A filesystem holding only `/b`. -/
def fsB : FS := ⟨[["b"]], [[]]⟩

/-- A filesystem with one file `/home/a.txt`. -/
def fsHome : FS := ⟨[["home", "a.txt"]], [[], ["home"]]⟩

/-- A concrete glob predicate: names ending in `.txt` (the pattern
`*.txt`). -/
def patTxt : String → Bool := fun n => (".txt".data).isSuffixOf n.data

/-- A resolver call asking to search `/home` for `.txt` files. -/
def searchCallEx : NexusFile.FuncCall :=
  ⟨"search_files", ⟨["home"], ".txt", "a", [], []⟩⟩

/-- A resolver call asking to move the found files into `/d`. -/
def moveCallEx : NexusFile.FuncCall :=
  ⟨"move_files", ⟨[], "", "", [], ["d"]⟩⟩

/-- A resolver call with an operation name outside the two permitted
kinds. -/
def deleteCallEx : NexusFile.FuncCall :=
  ⟨"delete_files", ⟨[], "", "", [["a"]], ["d"]⟩⟩

/-- A trivial stand-in for the state transformer of an approved robot
plan. -/
def planNoop : FS → FS × List FSEvent := fun fs => (fs, [])

/-! ### Helper lemmas -/

theorem toNat_charOfNat (n : Nat) (h : n < 55296) : (Char.ofNat n).toNat = n := by
  have hv : n.isValidChar := Or.inl h
  unfold Char.ofNat
  rw [dif_pos hv]
  rfl

theorem pyLowerChar_eq_y (c : Char) : pyLowerChar c = 'y' ↔ c = 'y' ∨ c = 'Y' := by
  unfold pyLowerChar
  by_cases h : 65 ≤ c.toNat ∧ c.toNat ≤ 90
  · rw [if_pos h]
    constructor
    · intro he
      have hn : (Char.ofNat (c.toNat + 32)).toNat = c.toNat + 32 :=
        toNat_charOfNat _ (by omega)
      rw [he] at hn
      have h121 : ('y').toNat = 121 := by decide
      have hc : c.toNat = 89 := by omega
      have hv : c.val.toNat = ('Y').val.toNat := hc
      exact Or.inr (Char.eq_of_val_eq (UInt32.ext hv))
    · rintro (rfl | rfl)
      · exact absurd h (by decide)
      · decide
  · rw [if_neg h]
    constructor
    · exact fun he => Or.inl he
    · rintro (rfl | rfl)
      · rfl
      · exact absurd (by decide : 65 ≤ ('Y').toNat ∧ ('Y').toNat ≤ 90) h

theorem map_pyLowerChar_eq_y :
    ∀ l : List Char, l.map pyLowerChar = ['y'] ↔ l = ['y'] ∨ l = ['Y']
  | [] => by simp
  | [b] => by
    simp only [List.map_cons, List.map_nil, List.cons.injEq, and_true]
    rw [pyLowerChar_eq_y b]
  | b :: c :: t => by
    constructor
    · intro he
      exact absurd (congrArg List.length he) (by simp)
    · rintro (he | he) <;> exact absurd (congrArg List.length he) (by simp)

theorem pyLower_eq_y (s : String) : pyLower s = "y" ↔ s = "y" ∨ s = "Y" := by
  obtain ⟨l⟩ := s
  constructor
  · intro h
    have hd : l.map pyLowerChar = ['y'] := congrArg String.data h
    rcases (map_pyLowerChar_eq_y l).1 hd with h1 | h1
    · exact Or.inl (congrArg String.mk h1)
    · exact Or.inr (congrArg String.mk h1)
  · intro h
    have hd : l = ['y'] ∨ l = ['Y'] := by
      rcases h with h1 | h1
      · exact Or.inl (congrArg String.data h1)
      · exact Or.inr (congrArg String.data h1)
    exact congrArg String.mk ((map_pyLowerChar_eq_y l).2 hd)

theorem robot_confirm_iff (s : String) : robot_confirm s = true ↔ s = "y" ∨ s = "Y" := by
  unfold robot_confirm
  rw [beq_iff_eq]
  exact pyLower_eq_y s

theorem preview_decision_iff (s : String) :
    NexusFile.preview_decision s = true ↔ pyStrip s = "y" ∨ pyStrip s = "Y" := by
  unfold NexusFile.preview_decision
  rw [beq_iff_eq]
  exact pyLower_eq_y (pyStrip s)

theorem mainLoop_rejected (env : Env) :
    ∀ (calls : List NexusFile.FuncCall) (confirms : List String)
      (ctx : List FPath) (fs : FS) (tr : List FSEvent),
      (∀ s ∈ confirms, NexusFile.preview_decision s = false) →
      (NexusFile.mainLoop env confirms ctx fs tr calls).1 = fs ∧
      (NexusFile.mainLoop env confirms ctx fs tr calls).2.1 = tr := by
  intro calls
  induction calls with
  | nil => exact fun _ _ _ _ _ => ⟨rfl, rfl⟩
  | cons c rest ih =>
    intro confirms ctx fs tr hrej
    have hhead : NexusFile.preview_decision (confirms.headD "") = false := by
      cases confirms with
      | nil => decide
      | cons a t => exact hrej a (List.mem_cons_self a t)
    have htail : ∀ s ∈ confirms.tail, NexusFile.preview_decision s = false := by
      cases confirms with
      | nil => intro s hs; cases hs
      | cons a t => exact fun s hs => hrej s (List.mem_cons_of_mem a hs)
    simp only [NexusFile.mainLoop]
    by_cases h1 : c.name == "search_files"
    · rw [if_pos h1]
      exact ih confirms _ fs tr hrej
    · rw [if_neg h1]
      by_cases h2 : c.name == "move_files"
      · rw [if_pos h2]
        by_cases h3 : ctx.isEmpty
        · rw [if_pos h3]
          exact ⟨rfl, rfl⟩
        · rw [if_neg h3, hhead]
          simp only [Bool.false_eq_true, if_false]
          exact ih confirms.tail ctx fs tr htail
      · rw [if_neg h2]
        exact ⟨rfl, rfl⟩

/-! ### Claim theorems -/

/-- C1: for every run and every confirmation input that is not an
affirmative "y" token (such as "", "n", "yes"), no filesystem mutation
occurs: the nexus run leaves the filesystem unchanged and attempts no
filesystem call, and the robot gate never invokes the approved plan. -/
theorem c1_rejection_no_mutation (env : Env) (fs : FS) (confirms : List String)
    (calls : List NexusFile.FuncCall) (plan : FS → FS × List FSEvent) (c : String)
    (hrej : ∀ s ∈ confirms, NexusFile.preview_decision s = false)
    (hc : robot_confirm c = false) :
    (NexusFile.run env confirms fs calls).1 = fs ∧
    (NexusFile.run env confirms fs calls).2.1 = [] ∧
    robotExecuteGate plan fs c = (fs, []) := by
  have h := mainLoop_rejected env calls confirms [] fs [] hrej
  refine ⟨h.1, h.2, ?_⟩
  unfold robotExecuteGate
  rw [hc]
  simp

/-- C1 witness: with inputs "n", "yes" and "" on the confirmation stream,
a search-then-move run touches nothing. -/
theorem c1_witness :
    (NexusFile.run envOk ["n", "yes", ""] fsHome [searchCallEx, moveCallEx]).1 = fsHome ∧
    (NexusFile.run envOk ["n", "yes", ""] fsHome [searchCallEx, moveCallEx]).2.1 = [] ∧
    robotExecuteGate planNoop fsHome "n" = (fsHome, []) :=
  c1_rejection_no_mutation envOk fsHome ["n", "yes", ""] [searchCallEx, moveCallEx]
    planNoop "n" (by decide) (by decide)

/-- C6 counterexample: the nexus confirmation gate accepts the input
`" y"`, which is not the token "y" under case-insensitive comparison
alone — the code strips surrounding whitespace first. -/
theorem c6_counterexample :
    NexusFile.preview_decision " y" = true ∧ pyLower " y" ≠ "y" := by decide

/-- C6 (amended): the nexus gate returns true iff the input stripped of
surrounding whitespace is "y" or "Y"; the robot gate returns true iff the
raw input is "y" or "Y"; every other input, including the empty string,
yields false, and the decision is a pure function of the single line
read (no re-prompting). -/
theorem c6_confirm_characterisation (s t : String) :
    (NexusFile.preview_decision s = true ↔ (pyStrip s = "y" ∨ pyStrip s = "Y")) ∧
    (robot_confirm t = true ↔ (t = "y" ∨ t = "Y")) :=
  ⟨preview_decision_iff s, robot_confirm_iff t⟩

theorem robot_moveLoop_shape (env : Env) (dest : FPath) :
    ∀ (paths : List FPath) (fs : FS),
      (FileSystemEngine.moveLoop env dest fs paths).1.map Prod.fst = paths ∧
      (FileSystemEngine.moveLoop env dest fs paths).2.2.2 =
        paths.map (fun f => FSEvent.moveAttempt f (dest ++ [nameOf f])) := by
  intro paths
  induction paths with
  | nil => exact fun _ => ⟨rfl, rfl⟩
  | cons f rest ih =>
    intro fs
    cases hm : shutilMove env fs f (dest ++ [nameOf f]) with
    | ok fs1 =>
      simp only [FileSystemEngine.moveLoop, hm, List.map_cons, List.cons.injEq,
        true_and]
      exact ⟨(ih fs1).1, (ih fs1).2⟩
    | error e =>
      simp only [FileSystemEngine.moveLoop, hm, List.map_cons, List.cons.injEq,
        true_and]
      exact ⟨(ih fs).1, (ih fs).2⟩

theorem robot_moveLoop_conservation (env : Env) (dest : FPath) :
    ∀ (paths : List FPath) (fs : FS),
      ((FileSystemEngine.moveLoop env dest fs paths).1.filter FileSystemEngine.isFailure).length
        + (FileSystemEngine.moveLoop env dest fs paths).2.1 = paths.length := by
  intro paths
  induction paths with
  | nil => exact fun _ => rfl
  | cons f rest ih =>
    intro fs
    cases hm : shutilMove env fs f (dest ++ [nameOf f]) with
    | ok fs1 =>
      have h := ih fs1
      simp [FileSystemEngine.moveLoop, hm, FileSystemEngine.isFailure,
        List.filter_cons]
      omega
    | error e =>
      have h := ih fs
      simp [FileSystemEngine.moveLoop, hm, FileSystemEngine.isFailure,
        List.filter_cons]
      omega

theorem nexus_moveLoop_complete_length (env : Env) (dest : FPath) :
    ∀ (fileList : List FPath) (fs : FS),
      (NexusFile.moveLoop env dest fs fileList).2.2.1 = none →
      (NexusFile.moveLoop env dest fs fileList).1.length = fileList.length := by
  intro fileList
  induction fileList with
  | nil => exact fun _ _ => rfl
  | cons f rest ih =>
    intro fs
    cases hm : shutilMove env fs f (dest ++ [nameOf f]) with
    | ok fs1 =>
      have h := ih fs1
      simp only [NexusFile.moveLoop, hm, List.length_cons]
      intro he
      rw [h he]
    | error e =>
      simp [NexusFile.moveLoop, hm]

theorem nexus_moveLoop_trace_moves (env : Env) (dest : FPath) :
    ∀ (fileList : List FPath) (fs : FS),
      ((NexusFile.moveLoop env dest fs fileList).2.2.2).all
        (fun e => !e.isMkdir) = true := by
  intro fileList
  induction fileList with
  | nil => exact fun _ => rfl
  | cons f rest ih =>
    intro fs
    cases hm : shutilMove env fs f (dest ++ [nameOf f]) with
    | ok fs1 =>
      simp only [NexusFile.moveLoop, hm, List.all_cons, Bool.and_eq_true]
      exact ⟨rfl, ih fs1⟩
    | error e =>
      simp [NexusFile.moveLoop, hm, FSEvent.isMkdir]

/-- C2 counterexample: in `nexus_file.move_files` the destination `/d` is
created successfully, the first source `/a` is missing, and the move of
the second source `/b` — present the whole time — is never attempted: the
`FileNotFoundError` of the first item escapes and aborts the batch. -/
theorem c2_counterexample :
    (NexusFile.move_files envOk fsB [["a"], ["b"]] ["d"]).exc =
      some "FileNotFoundError" ∧
    (NexusFile.move_files envOk fsB [["a"], ["b"]] ["d"]).trace =
      [FSEvent.mkdirAttempt ["d"], FSEvent.moveAttempt ["a"] ["d", "a"]] ∧
    (NexusFile.move_files envOk fsB [["a"], ["b"]] ["d"]).fs.files = [["b"]] := by
  decide

theorem nexus_moveLoop_structure (env : Env) (dest : FPath) :
    ∀ (fileList : List FPath) (fs : FS),
      ((NexusFile.moveLoop env dest fs fileList).2.2.1 = none ∧
        (NexusFile.moveLoop env dest fs fileList).2.2.2 =
          fileList.map (fun f => FSEvent.moveAttempt f (dest ++ [nameOf f]))) ∨
      (∃ e pref f suff, fileList = pref ++ f :: suff ∧
        (NexusFile.moveLoop env dest fs fileList).2.2.1 = some e ∧
        (NexusFile.moveLoop env dest fs fileList).2.2.2 =
          (pref ++ [f]).map
            (fun g => FSEvent.moveAttempt g (dest ++ [nameOf g]))) := by
  intro fileList
  induction fileList with
  | nil => intro fs; exact Or.inl ⟨rfl, rfl⟩
  | cons f rest ih =>
    intro fs
    cases hm : shutilMove env fs f (dest ++ [nameOf f]) with
    | error e =>
      refine Or.inr ⟨e, [], f, rest, rfl, ?_, ?_⟩ <;>
        simp [NexusFile.moveLoop, hm]
    | ok fs1 =>
      rcases ih fs1 with ⟨hn, ht⟩ | ⟨e, pref, g, suff, heq, hexc, htr⟩
      · refine Or.inl ⟨?_, ?_⟩ <;> simp [NexusFile.moveLoop, hm, hn, ht]
      · refine Or.inr ⟨e, f :: pref, g, suff, by rw [heq]; rfl, ?_, ?_⟩
        · simp [NexusFile.moveLoop, hm, hexc]
        · simp [NexusFile.moveLoop, hm, htr]

/-- C2 (amended): once the destination directory is created, the robot
engine's `move_files` (the variant with per-item `try/except`) attempts
every source in the list, in order, regardless of per-item failures; the
nexus variant's `move_files` either completes attempting every source or
lets the first per-item exception escape, in which case exactly the
sources up to and including the failing one were attempted and the
remaining batch is aborted. -/
theorem c2_per_item_isolation (env : Env) (fs : FS) (paths : List FPath)
    (fileList : List FPath) (dest : FPath)
    (h : env.mkdirOk dest = true) :
    (FileSystemEngine.move_files env fs paths dest).outcomes.map Prod.fst = paths ∧
    (FileSystemEngine.move_files env fs paths dest).trace =
      FSEvent.mkdirAttempt dest ::
        paths.map (fun f => FSEvent.moveAttempt f (dest ++ [nameOf f])) ∧
    (((NexusFile.move_files env fs fileList dest).exc = none ∧
        (NexusFile.move_files env fs fileList dest).trace =
          FSEvent.mkdirAttempt dest ::
            fileList.map (fun f => FSEvent.moveAttempt f (dest ++ [nameOf f]))) ∨
      (∃ e pref f suff, fileList = pref ++ f :: suff ∧
        (NexusFile.move_files env fs fileList dest).exc = some e ∧
        (NexusFile.move_files env fs fileList dest).trace =
          FSEvent.mkdirAttempt dest ::
            (pref ++ [f]).map
              (fun g => FSEvent.moveAttempt g (dest ++ [nameOf g])))) := by
  refine ⟨?_, ?_, ?_⟩
  · unfold FileSystemEngine.move_files
    rw [if_pos h]
    exact (robot_moveLoop_shape env dest paths _).1
  · unfold FileSystemEngine.move_files
    rw [if_pos h]
    exact congrArg _ (robot_moveLoop_shape env dest paths _).2
  · unfold NexusFile.move_files
    rw [if_pos h]
    rcases nexus_moveLoop_structure env dest fileList
        ⟨fs.files, dest :: fs.dirs⟩ with ⟨hn, ht⟩ | ⟨e, pref, g, suff, heq, hexc, htr⟩
    · exact Or.inl ⟨hn, congrArg _ ht⟩
    · exact Or.inr ⟨e, pref, g, suff, heq, hexc, congrArg _ htr⟩

/-- C2 witness: the robot engine attempts both `/a` (missing) and `/b`
(present), while the nexus variant on the same request either completes
or stops at its first failing source. -/
theorem c2_witness :
    (FileSystemEngine.move_files envOk fsB [["a"], ["b"]] ["d"]).outcomes.map
      Prod.fst = [["a"], ["b"]] ∧
    (FileSystemEngine.move_files envOk fsB [["a"], ["b"]] ["d"]).trace =
      [FSEvent.mkdirAttempt ["d"], FSEvent.moveAttempt ["a"] ["d", "a"],
        FSEvent.moveAttempt ["b"] ["d", "b"]] ∧
    (((NexusFile.move_files envOk fsB [["a"], ["b"]] ["d"]).exc = none ∧
        (NexusFile.move_files envOk fsB [["a"], ["b"]] ["d"]).trace =
          FSEvent.mkdirAttempt ["d"] ::
            [["a"], ["b"]].map
              (fun f => FSEvent.moveAttempt f (["d"] ++ [nameOf f]))) ∨
      (∃ e pref f suff, [["a"], ["b"]] = pref ++ f :: suff ∧
        (NexusFile.move_files envOk fsB [["a"], ["b"]] ["d"]).exc = some e ∧
        (NexusFile.move_files envOk fsB [["a"], ["b"]] ["d"]).trace =
          FSEvent.mkdirAttempt ["d"] ::
            (pref ++ [f]).map
              (fun g => FSEvent.moveAttempt g (["d"] ++ [nameOf g])))) :=
  c2_per_item_isolation envOk fsB [["a"], ["b"]] [["a"], ["b"]] ["d"] (by decide)

/-- C3: for every move request that runs to completion the per-item
report accounts for every requested source exactly once: in the robot
engine the reported failures plus `success_count` equal the number of
sources, and in the nexus variant a run that completes (no escaping
exception) returns one `moved` entry per source. -/
theorem c3_conservation (env : Env) (fs : FS) (paths : List FPath) (dest : FPath)
    (fs2 : FS) (fileList : List FPath) (dest2 : FPath)
    (h : env.mkdirOk dest = true) :
    ((FileSystemEngine.move_files env fs paths dest).outcomes.filter
        FileSystemEngine.isFailure).length
      + (FileSystemEngine.move_files env fs paths dest).successCount
      = paths.length ∧
    ((NexusFile.move_files env fs2 fileList dest2).exc = none →
      (NexusFile.move_files env fs2 fileList dest2).moved.length
        = fileList.length) := by
  constructor
  · unfold FileSystemEngine.move_files
    rw [if_pos h]
    exact robot_moveLoop_conservation env dest paths _
  · unfold NexusFile.move_files
    by_cases h2 : env.mkdirOk dest2
    · rw [if_pos h2]
      exact nexus_moveLoop_complete_length env dest2 fileList _
    · rw [if_neg h2]
      intro he
      cases he

/-- C3 witness: moving `/a` (present) and `/b` (missing) from a filesystem
holding only `/a` yields one failure plus one success in the robot report,
and a fully successful nexus run reports every source moved. -/
theorem c3_witness :
    ((FileSystemEngine.move_files envOk ⟨[["a"]], [[]]⟩ [["a"], ["b"]] ["d"]).outcomes.filter
        FileSystemEngine.isFailure).length
      + (FileSystemEngine.move_files envOk ⟨[["a"]], [[]]⟩ [["a"], ["b"]] ["d"]).successCount
      = 2 ∧
    ((NexusFile.move_files envOk ⟨[["a"]], [[]]⟩ [["a"], ["b"]] ["d"]).exc = none →
      (NexusFile.move_files envOk ⟨[["a"]], [[]]⟩ [["a"], ["b"]] ["d"]).moved.length = 2) :=
  c3_conservation envOk ⟨[["a"]], [[]]⟩ [["a"], ["b"]] ["d"]
    ⟨[["a"]], [[]]⟩ [["a"], ["b"]] ["d"] (by decide)

/-- C4: in both variants the move request opens with exactly one attempt
to create the destination directory — it is the first filesystem call of
the request and the only creation attempt — and when that creation fails
the request is aborted with no move attempted on any source and the
filesystem unchanged (the nexus variant letting the creation error escape
as the single fatal condition). -/
theorem c4_mkdir_once_first_fatal (env : Env) (fs : FS) (paths : List FPath)
    (dest : FPath) (fs2 : FS) (fileList : List FPath) (dest2 : FPath) :
    (FileSystemEngine.move_files env fs paths dest).trace.head? =
      some (FSEvent.mkdirAttempt dest) ∧
    (FileSystemEngine.move_files env fs paths dest).trace.tail.all
      (fun e => !e.isMkdir) = true ∧
    (env.mkdirOk dest = false →
      (FileSystemEngine.move_files env fs paths dest).outcomes = [] ∧
      (FileSystemEngine.move_files env fs paths dest).fs = fs ∧
      (FileSystemEngine.move_files env fs paths dest).trace =
        [FSEvent.mkdirAttempt dest]) ∧
    (NexusFile.move_files env fs2 fileList dest2).trace.head? =
      some (FSEvent.mkdirAttempt dest2) ∧
    (NexusFile.move_files env fs2 fileList dest2).trace.tail.all
      (fun e => !e.isMkdir) = true ∧
    (env.mkdirOk dest2 = false →
      (NexusFile.move_files env fs2 fileList dest2).moved = [] ∧
      (NexusFile.move_files env fs2 fileList dest2).fs = fs2 ∧
      (NexusFile.move_files env fs2 fileList dest2).exc = some "PermissionError" ∧
      (NexusFile.move_files env fs2 fileList dest2).trace =
        [FSEvent.mkdirAttempt dest2]) := by
  refine ⟨?_, ?_, ?_, ?_, ?_, ?_⟩
  · unfold FileSystemEngine.move_files
    by_cases h : env.mkdirOk dest
    · rw [if_pos h]; rfl
    · rw [if_neg h]; rfl
  · unfold FileSystemEngine.move_files
    by_cases h : env.mkdirOk dest
    · rw [if_pos h]
      show ((FileSystemEngine.moveLoop env dest _ paths).2.2.2).all _ = true
      rw [(robot_moveLoop_shape env dest paths _).2]
      simp [FSEvent.isMkdir]
    · rw [if_neg h]
      rfl
  · intro h
    unfold FileSystemEngine.move_files
    rw [if_neg (by rw [h]; exact fun hh => Bool.false_ne_true hh)]
    exact ⟨rfl, rfl, rfl⟩
  · unfold NexusFile.move_files
    by_cases h : env.mkdirOk dest2
    · rw [if_pos h]; rfl
    · rw [if_neg h]; rfl
  · unfold NexusFile.move_files
    by_cases h : env.mkdirOk dest2
    · rw [if_pos h]
      exact nexus_moveLoop_trace_moves env dest2 fileList _
    · rw [if_neg h]
      rfl
  · intro h
    unfold NexusFile.move_files
    rw [if_neg (by rw [h]; exact fun hh => Bool.false_ne_true hh)]
    exact ⟨rfl, rfl, rfl, rfl⟩

/-- C4 witness: with directory creation failing, both variants abort
before touching any source. -/
theorem c4_witness :
    (FileSystemEngine.move_files envNoMkdir fsAB [["a"]] ["d"]).trace =
      [FSEvent.mkdirAttempt ["d"]] ∧
    (FileSystemEngine.move_files envNoMkdir fsAB [["a"]] ["d"]).fs = fsAB ∧
    (NexusFile.move_files envNoMkdir fsAB [["a"]] ["d"]).exc =
      some "PermissionError" ∧
    (NexusFile.move_files envNoMkdir fsAB [["a"]] ["d"]).trace =
      [FSEvent.mkdirAttempt ["d"]] := by
  have h := c4_mkdir_once_first_fatal envNoMkdir fsAB [["a"]] ["d"]
    fsAB [["a"]] ["d"]
  exact ⟨(h.2.2.1 rfl).2.2, (h.2.2.1 rfl).2.1, (h.2.2.2.2.2 rfl).2.2.1,
    (h.2.2.2.2.2 rfl).2.2.2⟩

theorem globEntries_missing_root (fs : FS) (root : FPath) (recursive : Bool)
    (pat : String → Bool) (hwf : fs.wellFormed = true)
    (hne : fs.pathExists root = false) :
    FileSystemEngine.globEntries fs root recursive pat = [] := by
  unfold FileSystemEngine.globEntries
  rw [List.filter_eq_nil_iff]
  intro p hp
  intro hcond
  rw [Bool.and_eq_true] at hcond
  have hpref : root.isPrefixOf p = true ∧ root.length < p.length := by
    rcases hcond with ⟨hu, -⟩
    cases recursive with
    | true =>
      rw [if_pos rfl] at hu
      unfold isUnder at hu
      rw [Bool.and_eq_true, decide_eq_true_iff] at hu
      exact hu
    | false =>
      rw [if_neg Bool.false_ne_true] at hu
      unfold isChild at hu
      rw [Bool.and_eq_true, decide_eq_true_iff] at hu
      exact ⟨hu.1, by omega⟩
  have hrp : root ≠ p := by
    intro he
    rw [he] at hpref
    exact absurd hpref.2 (lt_irrefl _)
  have hwf2 := hwf
  unfold FS.wellFormed at hwf2
  rw [List.all_eq_true] at hwf2
  have hall := hwf2 p hp
  rw [List.all_eq_true] at hall
  have hmem : root ∈ p.inits.filter (fun q => q ≠ p) := by
    rw [List.mem_filter]
    refine ⟨?_, by simpa using hrp⟩
    rw [List.mem_inits]
    exact List.isPrefixOf_iff_prefix.1 hpref.1
  have hdir : fs.dirs.contains root = true := hall root hmem
  unfold FS.pathExists at hne
  rw [Bool.or_eq_false_iff] at hne
  rw [hne.2] at hdir
  cases hdir

theorem search_files_missing_dir (fs : FS) (dir : FPath) (ext term : String)
    (hwf : fs.wellFormed = true) (hne : fs.pathExists dir = false) :
    NexusFile.search_files fs dir ext term = [] := by
  unfold NexusFile.search_files
  rw [globEntries_missing_root fs dir true _ hwf hne]
  rfl

/-- C5 counterexample: for the nexus variant's `search_files`, a search
whose root `/gone` does not exist returns the empty list, but the run
reports only the generic "No files found." message — the same observable
as an existing root with no matches — and never a path-not-found
condition. -/
theorem c5_counterexample :
    fsHome.pathExists ["gone"] = false ∧
    NexusFile.searchReport fsHome ["gone"] ".txt" "a" =
      ([], FileSystemEngine.SearchMsg.noFilesFound) ∧
    FileSystemEngine.SearchMsg.noFilesFound ≠
      FileSystemEngine.SearchMsg.pathDoesNotExist := by decide

/-- C5 (amended): when the root path does not exist, no variant raises
past the component boundary and both return an empty sequence, but only
the robot engine's `find_files` signals a path-not-found condition
("Path does not exist."); the nexus variant's `search_files` yields the
generic no-files report instead. -/
theorem c5_missing_root (fs : FS) (pat : String → Bool) (rootPath : FPath)
    (recursive : Bool) (fs2 : FS) (dir : FPath) (ext term : String)
    (h1 : fs.pathExists rootPath = false)
    (h2 : fs2.wellFormed = true) (h3 : fs2.pathExists dir = false) :
    FileSystemEngine.find_files fs pat rootPath recursive =
      ([], FileSystemEngine.SearchMsg.pathDoesNotExist) ∧
    NexusFile.searchReport fs2 dir ext term =
      ([], FileSystemEngine.SearchMsg.noFilesFound) := by
  constructor
  · unfold FileSystemEngine.find_files
    rw [if_neg (by rw [h1]; exact fun hh => Bool.false_ne_true hh)]
  · unfold NexusFile.searchReport
    rw [search_files_missing_dir fs2 dir ext term h2 h3]
    rfl

/-- C5 witness: searching the nonexistent root `/gone`. -/
theorem c5_witness :
    FileSystemEngine.find_files fsHome patTxt ["gone"] true =
      ([], FileSystemEngine.SearchMsg.pathDoesNotExist) ∧
    NexusFile.searchReport fsHome ["gone"] ".txt" "a" =
      ([], FileSystemEngine.SearchMsg.noFilesFound) :=
  c5_missing_root fsHome patTxt ["gone"] true fsHome ["gone"] ".txt" "a"
    (by decide) (by decide) (by decide)

theorem mainLoop_unknown (env : Env) (confirms : List String)
    (c : NexusFile.FuncCall) (rest : List NexusFile.FuncCall)
    (hc1 : c.name ≠ "search_files") (hc2 : c.name ≠ "move_files") :
    ∀ (pre : List NexusFile.FuncCall) (ctx : List FPath) (fs : FS)
      (tr : List FSEvent),
      (∀ c' ∈ pre, c'.name = "search_files") →
      NexusFile.mainLoop env confirms ctx fs tr (pre ++ c :: rest) =
        (fs, tr, .unexpectedError "Unknown tool") := by
  intro pre
  induction pre with
  | nil =>
    intro ctx fs tr _
    simp only [List.nil_append, NexusFile.mainLoop]
    rw [if_neg (by simp [hc1]), if_neg (by simp [hc2])]
  | cons a t ih =>
    intro ctx fs tr hpre
    have ha : a.name = "search_files" := hpre a (List.mem_cons_self a t)
    simp only [List.cons_append, NexusFile.mainLoop]
    rw [if_pos (by simp [ha])]
    exact ih _ fs tr fun c' hc' => hpre c' (List.mem_cons_of_mem a hc')

/-- C7 counterexample: the claim fails as stated, in both directions, on
the response order `main` actually follows. With the response
`[search, move, delete_files]` and an approving "y", the approved move
relocates `/home/a.txt` to `/d/a.txt` before the loop reaches
`delete_files`, so the run surfaces "Unknown tool" yet has performed a
filesystem action; and with the response `[move, delete_files]` and an
empty context, `main` returns at "No files to move." and the
unknown-operation failure is never surfaced at all. -/
theorem c7_counterexample :
    (NexusFile.run envOk ["y"] fsHome [searchCallEx, moveCallEx, deleteCallEx]).2.2 =
      NexusFile.RunOutcome.unexpectedError "Unknown tool" ∧
    (NexusFile.run envOk ["y"] fsHome [searchCallEx, moveCallEx, deleteCallEx]).1.files =
      [["d", "a.txt"]] ∧
    (NexusFile.run envOk ["y"] fsHome [searchCallEx, moveCallEx, deleteCallEx]).2.1 =
      [FSEvent.mkdirAttempt ["d"],
        FSEvent.moveAttempt ["home", "a.txt"] ["d", "a.txt"]] ∧
    (NexusFile.run envOk ["y"] fsHome [moveCallEx, deleteCallEx]).2.2 =
      NexusFile.RunOutcome.noFilesToMove ∧
    NexusFile.RunOutcome.noFilesToMove ≠ NexusFile.RunOutcome.unexpectedError "Unknown tool" := by
  decide

/-- C7 (amended): when the dispatcher reaches a call whose operation name
is outside the two permitted kinds, `dispatch_tool` raises
`ValueError("Unknown tool")` — uncaught by its own
`(PermissionError, FileNotFoundError)` handler — the run ends surfacing
that failure, and the unknown call and everything after it cause no
filesystem action: the filesystem and trace are exactly as the preceding
calls left them. In particular a run whose calls before the unknown
operation are all read-only searches surfaces the failure with the
filesystem untouched; filesystem actions from approved moves earlier in
the same response are not undone, and an earlier empty-context move
call returns before the failure is reached. -/
theorem c7_unknown_stops_run (env : Env) (confirms : List String)
    (ctx : List FPath) (fs : FS) (tr : List FSEvent)
    (pre : List NexusFile.FuncCall) (c : NexusFile.FuncCall)
    (rest : List NexusFile.FuncCall)
    (hpre : ∀ c' ∈ pre, c'.name = "search_files")
    (hc1 : c.name ≠ "search_files") (hc2 : c.name ≠ "move_files") :
    NexusFile.mainLoop env confirms ctx fs tr (c :: rest) =
      (fs, tr, .unexpectedError "Unknown tool") ∧
    NexusFile.run env confirms fs (pre ++ c :: rest) =
      (fs, [], .unexpectedError "Unknown tool") := by
  constructor
  · simp only [NexusFile.mainLoop]
    rw [if_neg (by simp [hc1]), if_neg (by simp [hc2])]
  · exact mainLoop_unknown env confirms c rest hc1 hc2 pre [] fs [] hpre

/-- C7 witness: reaching `delete_files` stops the run on the spot with
the filesystem and trace as they stand, and a search-then-`delete_files`
response ends with the filesystem untouched. -/
theorem c7_witness :
    NexusFile.mainLoop envOk ["y"] [["home", "a.txt"]] fsHome
      [FSEvent.mkdirAttempt ["d"]] [deleteCallEx] =
      (fsHome, [FSEvent.mkdirAttempt ["d"]], .unexpectedError "Unknown tool") ∧
    NexusFile.run envOk ["y"] fsHome [searchCallEx, deleteCallEx] =
      (fsHome, [], .unexpectedError "Unknown tool") :=
  c7_unknown_stops_run envOk ["y"] [["home", "a.txt"]] fsHome
    [FSEvent.mkdirAttempt ["d"]] [searchCallEx] deleteCallEx []
    (by decide) (by decide) (by decide)

/-- C9: every path returned by the robot engine's `find_files` refers to
a regular file of the filesystem — entries that are directories are
filtered out by the `p.is_file()` guard even when their names match the
pattern. -/
theorem c9_find_files_only_regular (fs : FS) (pat : String → Bool)
    (rootPath : FPath) (recursive : Bool) (p : FPath)
    (hp : p ∈ (FileSystemEngine.find_files fs pat rootPath recursive).1) :
    fs.isFile p = true := by
  unfold FileSystemEngine.find_files at hp
  by_cases h : fs.pathExists rootPath = true
  · rw [if_pos h] at hp
    exact (List.mem_filter.1 hp).2
  · rw [if_neg (by simpa using h)] at hp
    cases hp

/-- C9 witness: a search over a tree holding the regular file
`/r/a.txt` and a directory `/r/b.txt` whose name also matches the
pattern returns only paths that are regular files. -/
theorem c9_witness :
    FS.isFile ⟨[["r", "a.txt"]], [[], ["r"], ["r", "b.txt"]]⟩ ["r", "a.txt"] =
      true :=
  c9_find_files_only_regular ⟨[["r", "a.txt"]], [[], ["r"], ["r", "b.txt"]]⟩
    patTxt ["r"] true ["r", "a.txt"] (by decide)

theorem contains_iff_mem {α : Type} [BEq α] [LawfulBEq α] (l : List α) (a : α) :
    l.contains a = true ↔ a ∈ l := List.elem_iff

theorem nameOf_concat (dest : FPath) (x : String) : nameOf (dest ++ [x]) = x := by
  unfold nameOf
  exact List.getLastD_concat _ _ _

theorem shutilMove_ok_files (env : Env) (fs : FS) (src tgt : FPath) (fs' : FS)
    (h : shutilMove env fs src tgt = Except.ok fs') :
    fs'.files = tgt :: ((fs.files.erase src).erase tgt) ∧ fs'.dirs = fs.dirs := by
  unfold shutilMove at h
  by_cases h1 : fs.files.contains src = true
  · rw [if_pos h1] at h
    by_cases h2 : env.moveDenied src = true
    · rw [if_pos h2] at h; cases h
    · rw [if_neg (by simpa using h2)] at h
      cases h
      exact ⟨rfl, rfl⟩
  · rw [if_neg (by simpa using h1)] at h; cases h

theorem shutilMove_ok_nodup (env : Env) (fs : FS) (src tgt : FPath) (fs' : FS)
    (h : shutilMove env fs src tgt = Except.ok fs') (hnd : fs.files.Nodup) :
    fs'.files.Nodup := by
  rw [(shutilMove_ok_files env fs src tgt fs' h).1]
  refine List.nodup_cons.2 ⟨?_, (hnd.erase src).erase tgt⟩
  exact (hnd.erase src).not_mem_erase

theorem shutilMove_missing (env : Env) (fs : FS) (src tgt : FPath)
    (h : src ∉ fs.files) :
    shutilMove env fs src tgt = Except.error "FileNotFoundError" := by
  unfold shutilMove
  rw [if_neg fun hh => h ((contains_iff_mem fs.files src).1 hh)]

theorem robot_moveLoop_count_le (env : Env) (dest : FPath) :
    ∀ (paths : List FPath) (fs : FS),
      (FileSystemEngine.moveLoop env dest fs paths).2.1 ≤ paths.length := by
  intro paths
  induction paths with
  | nil => intro fs; exact Nat.le_refl 0
  | cons f rest ih =>
    intro fs
    cases hm : shutilMove env fs f (dest ++ [nameOf f]) with
    | ok fs1 =>
      simp only [FileSystemEngine.moveLoop, hm, List.length_cons]
      exact Nat.add_le_add_right (ih fs1) 1
    | error e =>
      simp only [FileSystemEngine.moveLoop, hm, List.length_cons]
      exact Nat.le_succ_of_le (ih fs)

theorem robot_moveLoop_files_mono (env : Env) (dest : FPath) :
    ∀ (paths : List FPath) (fs : FS) (p : FPath),
      p ∈ (FileSystemEngine.moveLoop env dest fs paths).2.2.1.files →
      p ∈ fs.files ∨ ∃ f ∈ paths, p = dest ++ [nameOf f] := by
  intro paths
  induction paths with
  | nil => intro fs p hp; exact Or.inl hp
  | cons f rest ih =>
    intro fs p hp
    cases hm : shutilMove env fs f (dest ++ [nameOf f]) with
    | ok fs1 =>
      simp only [FileSystemEngine.moveLoop, hm] at hp
      rcases ih fs1 p hp with h1 | ⟨x, hx, hpx⟩
      · rw [(shutilMove_ok_files env fs f _ fs1 hm).1] at h1
        rcases List.mem_cons.1 h1 with h2 | h2
        · exact Or.inr ⟨f, List.mem_cons_self f rest, h2⟩
        · exact Or.inl (List.mem_of_mem_erase (List.mem_of_mem_erase h2))
      · exact Or.inr ⟨x, List.mem_cons_of_mem f hx, hpx⟩
    | error e =>
      simp only [FileSystemEngine.moveLoop, hm] at hp
      rcases ih fs p hp with h1 | ⟨x, hx, hpx⟩
      · exact Or.inl h1
      · exact Or.inr ⟨x, List.mem_cons_of_mem f hx, hpx⟩

theorem robot_moveLoop_sources_gone (env : Env) (dest : FPath) :
    ∀ (paths : List FPath) (fs : FS),
      fs.files.Nodup →
      (∀ f ∈ paths, f ≠ dest ++ [nameOf f]) →
      (FileSystemEngine.moveLoop env dest fs paths).2.1 = paths.length →
      ∀ f ∈ paths, f ∉ (FileSystemEngine.moveLoop env dest fs paths).2.2.1.files := by
  intro paths
  induction paths with
  | nil => intro fs _ _ _ f hf; cases hf
  | cons f rest ih =>
    intro fs hnd hne hcount g hg
    cases hm : shutilMove env fs f (dest ++ [nameOf f]) with
    | error e =>
      exfalso
      have hle := robot_moveLoop_count_le env dest rest fs
      simp only [FileSystemEngine.moveLoop, hm, List.length_cons] at hcount
      omega
    | ok fs1 =>
      simp only [FileSystemEngine.moveLoop, hm, List.length_cons] at hcount
      have hcount2 : (FileSystemEngine.moveLoop env dest fs1 rest).2.1 = rest.length := by
        omega
      have hfiles := (shutilMove_ok_files env fs f _ fs1 hm).1
      have hnd1 : fs1.files.Nodup := shutilMove_ok_nodup env fs f _ fs1 hm hnd
      have hne1 : ∀ x ∈ rest, x ≠ dest ++ [nameOf x] :=
        fun x hx => hne x (List.mem_cons_of_mem f hx)
      simp only [FileSystemEngine.moveLoop, hm]
      rcases List.mem_cons.1 hg with rfl | hg2
      · intro hmem
        rcases robot_moveLoop_files_mono env dest rest fs1 g hmem with h1 | ⟨x, hx, hgx⟩
        · rw [hfiles] at h1
          rcases List.mem_cons.1 h1 with h2 | h2
          · exact hne g (List.mem_cons_self g rest) h2
          · exact hnd.not_mem_erase (List.mem_of_mem_erase h2)
        · refine hne g (List.mem_cons_self g rest) ?_
          rw [hgx, nameOf_concat dest (nameOf x)]
      · exact ih fs1 hnd1 hne1 hcount2 g hg2

theorem robot_moveLoop_all_missing (env : Env) (dest : FPath) :
    ∀ (paths : List FPath) (fs : FS),
      (∀ f ∈ paths, f ∉ fs.files) →
      (FileSystemEngine.moveLoop env dest fs paths).2.1 = 0 ∧
      (∀ o ∈ (FileSystemEngine.moveLoop env dest fs paths).1,
        o.2 = Except.error "FileNotFoundError") := by
  intro paths
  induction paths with
  | nil => intro fs _; exact ⟨rfl, fun o ho => absurd ho (List.not_mem_nil o)⟩
  | cons f rest ih =>
    intro fs hmiss
    have hm : shutilMove env fs f (dest ++ [nameOf f]) =
        Except.error "FileNotFoundError" :=
      shutilMove_missing env fs f _ (hmiss f (List.mem_cons_self f rest))
    simp only [FileSystemEngine.moveLoop, hm]
    have hrest := ih fs fun x hx => hmiss x (List.mem_cons_of_mem f hx)
    refine ⟨hrest.1, ?_⟩
    intro o ho
    rcases List.mem_cons.1 ho with rfl | ho2
    · rfl
    · exact hrest.2 o ho2

/-- C8 counterexample: after a first `nexus_file.move_files` call that
moved `/a` and `/b` into `/d` with no escaping exception, invoking it a
second time with the same sources does not complete with a per-source
missing report: the `FileNotFoundError` on `/a` escapes at once, `/b` is
never examined, and no outcome is reported for it. -/
theorem c8_counterexample :
    (NexusFile.move_files envOk fsAB [["a"], ["b"]] ["d"]).exc = none ∧
    (NexusFile.move_files envOk
        (NexusFile.move_files envOk fsAB [["a"], ["b"]] ["d"]).fs
        [["a"], ["b"]] ["d"]).exc = some "FileNotFoundError" ∧
    (NexusFile.move_files envOk
        (NexusFile.move_files envOk fsAB [["a"], ["b"]] ["d"]).fs
        [["a"], ["b"]] ["d"]).moved = [] ∧
    (NexusFile.move_files envOk
        (NexusFile.move_files envOk fsAB [["a"], ["b"]] ["d"]).fs
        [["a"], ["b"]] ["d"]).trace =
      [FSEvent.mkdirAttempt ["d"], FSEvent.moveAttempt ["a"] ["d", "a"]] := by
  decide

/-- C8 (amended): for the robot engine's `move_files`, after a first call
that moved every requested source (none of which already sat at its own
target path), a second call with the same sources and destination
completes without crashing, succeeds on nothing, and reports a
`FileNotFoundError` (source missing) outcome for every source; the nexus
variant instead lets the first `FileNotFoundError` escape. -/
theorem c8_robot_second_move_source_missing (env : Env) (fs : FS)
    (paths : List FPath) (dest : FPath)
    (hnd : fs.files.Nodup)
    (h1 : (FileSystemEngine.move_files env fs paths dest).successCount =
      paths.length)
    (h2 : ∀ f ∈ paths, f ≠ dest ++ [nameOf f]) :
    (FileSystemEngine.move_files env
      (FileSystemEngine.move_files env fs paths dest).fs paths dest).successCount
      = 0 ∧
    (FileSystemEngine.move_files env
      (FileSystemEngine.move_files env fs paths dest).fs paths dest).outcomes.map
      Prod.fst = paths ∧
    ∀ o ∈ (FileSystemEngine.move_files env
      (FileSystemEngine.move_files env fs paths dest).fs paths dest).outcomes,
      o.2 = Except.error "FileNotFoundError" := by
  by_cases hmk : env.mkdirOk dest = true
  · have hfs1 : (FileSystemEngine.move_files env fs paths dest).fs =
        (FileSystemEngine.moveLoop env dest ⟨fs.files, dest :: fs.dirs⟩ paths).2.2.1 := by
      unfold FileSystemEngine.move_files
      rw [if_pos hmk]
    have hcount : (FileSystemEngine.moveLoop env dest ⟨fs.files, dest :: fs.dirs⟩ paths).2.1
        = paths.length := by
      have := h1
      unfold FileSystemEngine.move_files at this
      rw [if_pos hmk] at this
      exact this
    have hgone := robot_moveLoop_sources_gone env dest paths
      ⟨fs.files, dest :: fs.dirs⟩ hnd h2 hcount
    have hmiss : ∀ f ∈ paths,
        f ∉ (FileSystemEngine.move_files env fs paths dest).fs.files := by
      rw [hfs1]; exact hgone
    have hsecond := robot_moveLoop_all_missing env dest paths
      ⟨(FileSystemEngine.move_files env fs paths dest).fs.files,
        dest :: (FileSystemEngine.move_files env fs paths dest).fs.dirs⟩ hmiss
    have hshape := robot_moveLoop_shape env dest paths
      ⟨(FileSystemEngine.move_files env fs paths dest).fs.files,
        dest :: (FileSystemEngine.move_files env fs paths dest).fs.dirs⟩
    constructor
    · unfold FileSystemEngine.move_files
      rw [if_pos hmk]
      exact hsecond.1
    constructor
    · unfold FileSystemEngine.move_files
      rw [if_pos hmk]
      exact hshape.1
    · unfold FileSystemEngine.move_files
      rw [if_pos hmk]
      exact hsecond.2
  · have hnil : paths = [] := by
      have := h1
      unfold FileSystemEngine.move_files at this
      rw [if_neg hmk] at this
      exact List.eq_nil_of_length_eq_zero this.symm
    subst hnil
    unfold FileSystemEngine.move_files
    rw [if_neg hmk]
    exact ⟨rfl, rfl, fun o ho => absurd ho (List.not_mem_nil o)⟩

/-- C8 witness: both `/a` and `/b` move successfully into `/d`; the
second identical request reports every source missing. -/
theorem c8_witness :
    (FileSystemEngine.move_files envOk
      (FileSystemEngine.move_files envOk fsAB [["a"], ["b"]] ["d"]).fs
      [["a"], ["b"]] ["d"]).successCount = 0 ∧
    (FileSystemEngine.move_files envOk
      (FileSystemEngine.move_files envOk fsAB [["a"], ["b"]] ["d"]).fs
      [["a"], ["b"]] ["d"]).outcomes.map Prod.fst = [["a"], ["b"]] ∧
    ∀ o ∈ (FileSystemEngine.move_files envOk
      (FileSystemEngine.move_files envOk fsAB [["a"], ["b"]] ["d"]).fs
      [["a"], ["b"]] ["d"]).outcomes,
      o.2 = Except.error "FileNotFoundError" :=
  c8_robot_second_move_source_missing envOk fsAB [["a"], ["b"]] ["d"]
    (by decide) (by decide) (by decide)

theorem robot_trace_targets (env : Env) (fs : FS) (paths : List FPath)
    (dest : FPath) (src tgt : FPath)
    (h : FSEvent.moveAttempt src tgt ∈
      (FileSystemEngine.move_files env fs paths dest).trace) :
    tgt = dest ++ [nameOf src] := by
  by_cases hmk : env.mkdirOk dest = true
  · unfold FileSystemEngine.move_files at h
    rw [if_pos hmk] at h
    rcases List.mem_cons.1 h with h1 | h1
    · cases h1
    · rw [(robot_moveLoop_shape env dest paths _).2] at h1
      rcases List.mem_map.1 h1 with ⟨f, hf, hfe⟩
      injection hfe with h2 h3
      subst h2
      exact h3.symm
  · unfold FileSystemEngine.move_files at h
    rw [if_neg hmk] at h
    rcases List.mem_cons.1 h with h1 | h1
    · cases h1
    · cases h1

theorem nexus_moveLoop_targets (env : Env) (dest : FPath) :
    ∀ (fileList : List FPath) (fs : FS) (src tgt : FPath),
      FSEvent.moveAttempt src tgt ∈
        (NexusFile.moveLoop env dest fs fileList).2.2.2 →
      tgt = dest ++ [nameOf src] := by
  intro fileList
  induction fileList with
  | nil => intro fs src tgt h; cases h
  | cons f rest ih =>
    intro fs src tgt h
    cases hm : shutilMove env fs f (dest ++ [nameOf f]) with
    | ok fs1 =>
      simp only [NexusFile.moveLoop, hm] at h
      rcases List.mem_cons.1 h with h1 | h1
      · injection h1 with h2 h3
        subst h2
        exact h3
      · exact ih fs1 src tgt h1
    | error e =>
      simp only [NexusFile.moveLoop, hm] at h
      rcases List.mem_cons.1 h with h1 | h1
      · injection h1 with h2 h3
        subst h2
        exact h3
      · cases h1

theorem nexus_trace_targets (env : Env) (fs : FS) (fileList : List FPath)
    (dest : FPath) (src tgt : FPath)
    (h : FSEvent.moveAttempt src tgt ∈
      (NexusFile.move_files env fs fileList dest).trace) :
    tgt = dest ++ [nameOf src] := by
  by_cases hmk : env.mkdirOk dest = true
  · unfold NexusFile.move_files at h
    rw [if_pos hmk] at h
    rcases List.mem_cons.1 h with h1 | h1
    · cases h1
    · exact nexus_moveLoop_targets env dest fileList _ src tgt h1
  · unfold NexusFile.move_files at h
    rw [if_neg hmk] at h
    rcases List.mem_cons.1 h with h1 | h1
    · cases h1
    · cases h1

/-- C10: in both variants every attempted move targets the destination
directory joined with the source's base name; consequently two distinct
sources sharing a base name target the identical path, and moving both in
one request reports two successes while only a single file remains at the
shared target — the second move overwrites the first. -/
theorem c10_basename_target_collision (env : Env) (fs : FS)
    (paths : List FPath) (fileList : List FPath) (dest : FPath)
    (s1 s2 : FPath)
    (hmk : env.mkdirOk dest = true)
    (hd1 : env.moveDenied s1 = false) (hd2 : env.moveDenied s2 = false)
    (h1 : s1 ∈ fs.files) (h2 : s2 ∈ fs.files) (hne : s1 ≠ s2)
    (hname : nameOf s1 = nameOf s2)
    (hnd : fs.files.Nodup)
    (ht2 : s2 ≠ dest ++ [nameOf s2]) :
    (∀ src tgt, FSEvent.moveAttempt src tgt ∈
        (FileSystemEngine.move_files env fs paths dest).trace →
      tgt = dest ++ [nameOf src]) ∧
    (∀ src tgt, FSEvent.moveAttempt src tgt ∈
        (NexusFile.move_files env fs fileList dest).trace →
      tgt = dest ++ [nameOf src]) ∧
    (FileSystemEngine.move_files env fs [s1, s2] dest).successCount = 2 ∧
    (FileSystemEngine.move_files env fs [s1, s2] dest).fs.files.count
      (dest ++ [nameOf s1]) = 1 := by
  have hs2t : s2 ≠ dest ++ [nameOf s1] := by rw [hname]; exact ht2
  have hconts1 : fs.files.contains s1 = true := (contains_iff_mem _ _).2 h1
  have hm1 : shutilMove env ⟨fs.files, dest :: fs.dirs⟩ s1 (dest ++ [nameOf s1]) =
      Except.ok ⟨(dest ++ [nameOf s1]) ::
        ((fs.files.erase s1).erase (dest ++ [nameOf s1])), dest :: fs.dirs⟩ := by
    unfold shutilMove
    rw [if_pos hconts1, if_neg (by rw [hd1]; exact Bool.false_ne_true)]
  have hs2mem : s2 ∈ (dest ++ [nameOf s1]) ::
      ((fs.files.erase s1).erase (dest ++ [nameOf s1])) :=
    List.mem_cons_of_mem _
      ((List.mem_erase_of_ne hs2t).2 ((List.mem_erase_of_ne hne.symm).2 h2))
  have hconts2 : (FS.mk ((dest ++ [nameOf s1]) ::
      ((fs.files.erase s1).erase (dest ++ [nameOf s1]))) (dest :: fs.dirs)).files.contains
      s2 = true := (contains_iff_mem _ _).2 hs2mem
  have hm2 : shutilMove env ⟨(dest ++ [nameOf s1]) ::
      ((fs.files.erase s1).erase (dest ++ [nameOf s1])), dest :: fs.dirs⟩ s2
      (dest ++ [nameOf s2]) =
      Except.ok ⟨(dest ++ [nameOf s2]) ::
        ((((dest ++ [nameOf s1]) ::
          ((fs.files.erase s1).erase (dest ++ [nameOf s1]))).erase s2).erase
            (dest ++ [nameOf s2])), dest :: fs.dirs⟩ := by
    unfold shutilMove
    rw [if_pos hconts2, if_neg (by rw [hd2]; exact Bool.false_ne_true)]
  refine ⟨fun src tgt h => robot_trace_targets env fs paths dest src tgt h,
    fun src tgt h => nexus_trace_targets env fs fileList dest src tgt h, ?_, ?_⟩
  · unfold FileSystemEngine.move_files
    rw [if_pos hmk]
    show (FileSystemEngine.moveLoop env dest ⟨fs.files, dest :: fs.dirs⟩
      [s1, s2]).2.1 = 2
    simp only [FileSystemEngine.moveLoop, hm1, hm2]
  · unfold FileSystemEngine.move_files
    rw [if_pos hmk]
    show ((FileSystemEngine.moveLoop env dest ⟨fs.files, dest :: fs.dirs⟩
      [s1, s2]).2.2.1).files.count (dest ++ [nameOf s1]) = 1
    simp only [FileSystemEngine.moveLoop, hm1, hm2]
    rw [← hname]
    rw [List.erase_cons_tail (by simpa using hs2t.symm)]
    rw [List.erase_cons_head]
    rw [List.count_cons_self]
    have hnotmem : (dest ++ [nameOf s1]) ∉
        ((fs.files.erase s1).erase (dest ++ [nameOf s1])).erase s2 :=
      fun hmem => (hnd.erase s1).not_mem_erase (List.mem_of_mem_erase hmem)
    rw [List.count_eq_zero.2 hnotmem]

/-- C10 witness: moving `/x/f.txt` and `/y/f.txt` into `/d` reports two
successes but leaves a single file at `/d/f.txt`. -/
theorem c10_witness :
    (FileSystemEngine.move_files envOk
      ⟨[["x", "f.txt"], ["y", "f.txt"]], [[], ["x"], ["y"]]⟩
      [["x", "f.txt"], ["y", "f.txt"]] ["d"]).successCount = 2 ∧
    (FileSystemEngine.move_files envOk
      ⟨[["x", "f.txt"], ["y", "f.txt"]], [[], ["x"], ["y"]]⟩
      [["x", "f.txt"], ["y", "f.txt"]] ["d"]).fs.files.count ["d", "f.txt"] = 1 :=
  ⟨(c10_basename_target_collision envOk
      ⟨[["x", "f.txt"], ["y", "f.txt"]], [[], ["x"], ["y"]]⟩ [] []
      ["d"] ["x", "f.txt"] ["y", "f.txt"] (by decide) (by decide) (by decide)
      (by decide) (by decide) (by decide) (by decide) (by decide)
      (by decide)).2.2.1,
    (c10_basename_target_collision envOk
      ⟨[["x", "f.txt"], ["y", "f.txt"]], [[], ["x"], ["y"]]⟩ [] []
      ["d"] ["x", "f.txt"] ["y", "f.txt"] (by decide) (by decide) (by decide)
      (by decide) (by decide) (by decide) (by decide) (by decide)
      (by decide)).2.2.2⟩

end NexusRobot
